import Mathlib

/-!
Verification of the FixtureGenerator draw engine and physics handlers.

The definitions below are a shallow embedding of the TypeScript source:
* `Player`, `Fixture` mirror the interfaces in `types.ts`;
* `DrawStageState` collects the `useState` fields of the `DrawStage`
  component (`remainingPlayers`, `fixtures`, `currentHome`,
  `lastDrawnNumber`, `isDrawing`, `drawHistory`);
* `matchesNeededOf` is the `useMemo` bracket computation, with
  `Math.pow(2, Math.ceil(Math.log2 N))` modelled exactly as
  `2 ^ Nat.clog 2 N` (for the integer inputs involved the float
  computation is exact);
* `drawPlayer` is the `drawPlayer` callback; the uniformly random index
  `Math.floor(Math.random() * len)` is supplied as a parameter and
  reduced `% len` (the source index is always already in range), and the
  `crypto.randomUUID()` fixture id is supplied as the `freshId` parameter;
* `toggleDraw` and `timerEffect` are the start/pause handler and the
  state effect of the pacing-timer `useEffect`;
* `SimBody`, `WorldState`, `ejectEffect`, `gravityY` and
  `beforeUpdateForces` model the `LotteryMachine` component: the
  ejection `useEffect`, the gravity-toggle `useEffect` and the
  `beforeUpdate` attractor handler, with coordinates, masses and the
  `Math.random()` samples as rationals.  The source guard
  `distance < 1` (with `distance = Math.sqrt(distanceSq)`) is modelled
  by the equivalent `distanceSq < 1`.
-/

/-- The `Player` interface: id, display name, assigned entry number. -/
structure Player where
  id : String
  name : String
  number : Nat
deriving DecidableEq, Repr

/-- The `Fixture` interface: id, home player, away player where `none`
models the `null` "bye" sentinel. -/
structure Fixture where
  id : String
  home : Player
  away : Option Player
deriving DecidableEq, Repr

/-- The `useState` fields of the `DrawStage` component. -/
structure DrawStageState where
  remainingPlayers : List Player
  fixtures : List Fixture
  currentHome : Option Player
  lastDrawnNumber : Option Nat
  isDrawing : Bool
  drawHistory : List String
deriving DecidableEq, Repr

/-- The `useMemo` bracket computation in `DrawStage`:
`if (totalPlayers < 2) return { matchesNeeded: 0 }` and otherwise
`matchesNeeded = (N - byesNeeded) / 2` with
`byesNeeded = 2^ceil(log2 N) - N`. -/
def matchesNeededOf (totalPlayers : Nat) : Nat :=
  if totalPlayers < 2 then 0
  else
    let nextPowerOf2 := 2 ^ Nat.clog 2 totalPlayers
    let byesNeeded := nextPowerOf2 - totalPlayers
    (totalPlayers - byesNeeded) / 2

/-- The intermediate `byesNeeded` quantity of the same computation,
`2^ceil(log2 N) - N` (meaningful for `N ≥ 2`). -/
def byesNeededOf (totalPlayers : Nat) : Nat :=
  2 ^ Nat.clog 2 totalPlayers - totalPlayers

/-- The count `fixtures.filter(f => f.away !== null).length` computed
as `matchesSoFar` inside `drawPlayer`. -/
def matchesSoFar (fixtures : List Fixture) : Nat :=
  (fixtures.filter (fun f => f.away.isSome)).length

/-- Count of bye fixtures, `fixtures.filter(f => f.away === null).length`. -/
def byesSoFar (fixtures : List Fixture) : Nat :=
  (fixtures.filter (fun f => f.away.isNone)).length

/-- The `drawPlayer` callback of `DrawStage`.  `matchesNeeded` is the
captured `useMemo` value, `freshId` stands for `crypto.randomUUID()`,
and `randomIndex` for `Math.floor(Math.random() * remainingPlayers.length)`
(reduced mod the pool length; the source value is always in range). -/
def drawPlayer (matchesNeeded : Nat) (freshId : String) (randomIndex : Nat)
    (s : DrawStageState) : DrawStageState :=
  if h : s.remainingPlayers.length = 0 then
    { s with isDrawing := false }
  else
    let i : Fin s.remainingPlayers.length :=
      ⟨randomIndex % s.remainingPlayers.length,
       Nat.mod_lt _ (Nat.pos_of_ne_zero h)⟩
    let drawn := s.remainingPlayers.get i
    let newRemaining := s.remainingPlayers.eraseIdx i
    if matchesSoFar s.fixtures < matchesNeeded then
      match s.currentHome with
      | some home =>
        { s with
          remainingPlayers := newRemaining
          lastDrawnNumber := some drawn.number
          fixtures := { id := freshId, home := home, away := some drawn } :: s.fixtures
          drawHistory := (drawn.name ++ " drawn vs " ++ home.name) :: s.drawHistory
          currentHome := none }
      | none =>
        { s with
          remainingPlayers := newRemaining
          lastDrawnNumber := some drawn.number
          currentHome := some drawn
          drawHistory := (drawn.name ++ " drawn as Home") :: s.drawHistory }
    else
      { s with
        remainingPlayers := newRemaining
        lastDrawnNumber := some drawn.number
        fixtures := { id := freshId, home := drawn, away := none } :: s.fixtures
        drawHistory := (drawn.name ++ " receives a BYE!") :: s.drawHistory }

/-- Initial `DrawStage` state: pool seeded with `initialPlayers`, empty
fixtures, no pending home, no last-drawn number, not drawing. -/
def initState (initialPlayers : List Player) : DrawStageState :=
  { remainingPlayers := initialPlayers
    fixtures := []
    currentHome := none
    lastDrawnNumber := none
    isDrawing := false
    drawHistory := [] }

/-- Iterated `drawPlayer` calls, one per supplied random index. -/
def drawSeq (matchesNeeded : Nat) (idxs : List Nat) (s : DrawStageState) :
    DrawStageState :=
  match idxs with
  | [] => s
  | i :: rest => drawSeq matchesNeeded rest (drawPlayer matchesNeeded "" i s)

/-- The `toggleDraw` handler:
`if (remainingPlayers.length > 0) setIsDrawing(!isDrawing)`. -/
def toggleDraw (s : DrawStageState) : DrawStageState :=
  if 0 < s.remainingPlayers.length then
    { s with isDrawing := !s.isDrawing }
  else s

/-- The state effect of the pacing-timer `useEffect`: when the pool is
empty it runs `setIsDrawing(false)`; otherwise it only (re)arms the
interval and leaves the state alone. -/
def timerEffect (s : DrawStageState) : DrawStageState :=
  if s.remainingPlayers.length = 0 then
    { s with isDrawing := false }
  else s

/-- The operations that can touch the `DrawStage` state after mount. -/
inductive DrawOp where
  | toggle : DrawOp
  | timer : DrawOp
  | draw (freshId : String) (randomIndex : Nat) : DrawOp
deriving Repr

/-- Apply one `DrawOp` to the state. -/
def applyOp (matchesNeeded : Nat) (op : DrawOp) (s : DrawStageState) :
    DrawStageState :=
  match op with
  | .toggle => toggleDraw s
  | .timer => timerEffect s
  | .draw freshId randomIndex => drawPlayer matchesNeeded freshId randomIndex s

/-- Apply a sequence of `DrawOp`s in order. -/
def applyOps (matchesNeeded : Nat) (ops : List DrawOp) (s : DrawStageState) :
    DrawStageState :=
  match ops with
  | [] => s
  | op :: rest => applyOps matchesNeeded rest (applyOp matchesNeeded op s)

/-! Physics simulation (`LotteryMachine` component). -/

/-- A dynamic ball body: its `label` (the entry number stored as the
Matter.js label), position and mass. -/
structure SimBody where
  label : Nat
  posX : ℚ
  posY : ℚ
  mass : ℚ
deriving DecidableEq, Repr

/-- The body bookkeeping of `LotteryMachine`: the dynamic bodies in the
Matter.js world, and the `bodiesRef` map from entry number to body,
modelled as an association list. -/
structure WorldState where
  worldBodies : List SimBody
  bodyMap : List (Nat × SimBody)
deriving DecidableEq, Repr

/-- Model of `Map.get`: first entry with the given key, if any. -/
def mapLookup (k : Nat) : List (Nat × SimBody) → Option SimBody
  | [] => none
  | (k2, b) :: rest => if k2 = k then some b else mapLookup k rest

/-- Model of `Map.delete`: drops the first entry with the given key. -/
def mapDelete (k : Nat) : List (Nat × SimBody) → List (Nat × SimBody)
  | [] => []
  | (k2, b) :: rest => if k2 = k then rest else (k2, b) :: mapDelete k rest

/-- The ejection `useEffect` of `LotteryMachine`: when `drawnNumber` is
non-null and a body for it exists in `bodiesRef`, remove that body from
the world (`Matter.World.remove`) and delete its map entry; otherwise do
nothing. -/
def ejectEffect (drawnNumber : Option Nat) (w : WorldState) : WorldState :=
  match drawnNumber with
  | none => w
  | some k =>
    match mapLookup k w.bodyMap with
    | none => w
    | some body =>
      { worldBodies := w.worldBodies.erase body
        bodyMap := mapDelete k w.bodyMap }

/-- The gravity-toggle `useEffect`:
`engine.world.gravity.y = isDrawing ? 0 : 1`. -/
def gravityY (isDrawing : Bool) : ℚ :=
  if isDrawing then 0 else 1

/-- The per-body outcome of one `beforeUpdate` attractor-handler pass:
the force passed to `Matter.Body.applyForce` (if any) and the angular
velocity passed to `Matter.Body.setAngularVelocity` (if any). -/
structure AppliedForces where
  force : Option (ℚ × ℚ)
  spin : Option ℚ
deriving DecidableEq, Repr

/-- The `beforeUpdate` attractor handler of `LotteryMachine`, per body.
`r1, r2` are the `Math.random()` samples in the force components, `r3`
the sample compared with `0.9`, `r4` the sample in the angular-velocity
kick.  The constants are the source values `0.00002` (strength factor),
`0.015` (turbulence factor), `0.9` and `0.1`.  The early
return on `distance < 1` is the equivalent `distanceSq < 1`. -/
def beforeUpdateForces (isDrawing : Bool) (centerX centerY : ℚ)
    (r1 r2 r3 r4 : ℚ) (body : SimBody) : AppliedForces :=
  if !isDrawing then { force := none, spin := none }
  else
    let dx := centerX - body.posX
    let dy := centerY - body.posY
    let distanceSq := dx * dx + dy * dy
    if distanceSq < 1 then { force := none, spin := none }
    else
      let strength := (2 / 100000 : ℚ) * body.mass
      let turbulence := (15 / 1000 : ℚ) * body.mass
      { force := some (dx * strength + (r1 - 1/2) * turbulence,
                       dy * strength + (r2 - 1/2) * turbulence)
        spin := if (9 / 10 : ℚ) < r3 then some ((r4 - 1/2) * (1/10)) else none }

/-! Derived quantities and helper lemmas. -/

/-- Count of fixtures with a non-null away entrant. -/
def matchCount (s : DrawStageState) : Nat := matchesSoFar s.fixtures

/-- Count of fixtures with a null away entrant (byes). -/
def byeCount (s : DrawStageState) : Nat := byesSoFar s.fixtures

/-- One when a pending-home entrant is present, else zero. -/
def pendingCount (s : DrawStageState) : Nat :=
  if s.currentHome.isSome then 1 else 0

/-- The conserved entrant sum:
`|remaining pool| + pending + 2 × |matches| + |byes|`. -/
def entrantSum (s : DrawStageState) : Nat :=
  s.remainingPlayers.length + pendingCount s + 2 * matchCount s + byeCount s

/-- All players referenced by a fixture (home, and away when present). -/
def fixturePlayers (f : Fixture) : List Player :=
  f.home :: f.away.toList

/-- Every player the draw state holds: remaining pool, pending home,
and all fixture slots. -/
def statePlayers (s : DrawStageState) : List Player :=
  s.remainingPlayers ++ s.currentHome.toList ++ s.fixtures.flatMap fixturePlayers

lemma drawPlayer_of_empty (m : Nat) (fid : String) (i : Nat)
    (s : DrawStageState) (h : s.remainingPlayers.length = 0) :
    drawPlayer m fid i s = { s with isDrawing := false } := by
  simp [drawPlayer, h]

lemma drawPlayer_counts (m : Nat) (fid : String) (i : Nat)
    (s : DrawStageState) (h : s.remainingPlayers.length ≠ 0) :
    (drawPlayer m fid i s).remainingPlayers.length + 1
        = s.remainingPlayers.length ∧
    ((matchesSoFar s.fixtures < m ∧ s.currentHome.isSome = true ∧
        matchCount (drawPlayer m fid i s) = matchCount s + 1 ∧
        byeCount (drawPlayer m fid i s) = byeCount s ∧
        (drawPlayer m fid i s).currentHome = none) ∨
     (matchesSoFar s.fixtures < m ∧ s.currentHome = none ∧
        matchCount (drawPlayer m fid i s) = matchCount s ∧
        byeCount (drawPlayer m fid i s) = byeCount s ∧
        (drawPlayer m fid i s).currentHome.isSome = true) ∨
     (¬ matchesSoFar s.fixtures < m ∧
        matchCount (drawPlayer m fid i s) = matchCount s ∧
        byeCount (drawPlayer m fid i s) = byeCount s + 1 ∧
        (drawPlayer m fid i s).currentHome = s.currentHome)) := by
  have hlt : i % s.remainingPlayers.length < s.remainingPlayers.length :=
    Nat.mod_lt _ (Nat.pos_of_ne_zero h)
  unfold drawPlayer
  rw [dif_neg h]
  by_cases hm : matchesSoFar s.fixtures < m
  · rcases hc : s.currentHome with _ | home
    · simp only [if_pos hm, hc]
      refine ⟨List.length_eraseIdx_add_one hlt, Or.inr (Or.inl ?_)⟩
      simp [matchCount, byeCount, matchesSoFar, byesSoFar, hm, hc]
      exact hm
    · simp only [if_pos hm, hc]
      refine ⟨List.length_eraseIdx_add_one hlt, Or.inl ?_⟩
      simp [matchCount, byeCount, matchesSoFar, byesSoFar, List.filter_cons, hm, hc]
      exact hm
  · simp only [if_neg hm]
    refine ⟨List.length_eraseIdx_add_one hlt, Or.inr (Or.inr ?_)⟩
    simp [matchCount, byeCount, matchesSoFar, byesSoFar, List.filter_cons, hm]
    exact Nat.le_of_not_lt hm

lemma entrantSum_drawPlayer (m : Nat) (fid : String) (i : Nat)
    (s : DrawStageState) :
    entrantSum (drawPlayer m fid i s) = entrantSum s := by
  by_cases h : s.remainingPlayers.length = 0
  · rw [drawPlayer_of_empty m fid i s h]
    rfl
  · obtain ⟨hlen, hcase⟩ := drawPlayer_counts m fid i s h
    unfold entrantSum pendingCount
    rcases hcase with ⟨hm, hsome, hmc, hbc, hnone⟩ |
        ⟨hm, hnone, hmc, hbc, hsome⟩ | ⟨hm, hmc, hbc, hsame⟩
    · simp [hnone, hsome, hmc, hbc]
      omega
    · simp [hnone, hsome, hmc, hbc]
      omega
    · rw [hsame, hmc, hbc]
      omega

lemma entrantSum_drawSeq (m : Nat) (idxs : List Nat) (s : DrawStageState) :
    entrantSum (drawSeq m idxs s) = entrantSum s := by
  induction idxs generalizing s with
  | nil => rfl
  | cons i rest ih =>
    rw [drawSeq, ih, entrantSum_drawPlayer]

/-- The routing invariant maintained by `drawPlayer`: the match count
never exceeds the quota, a full quota forces an empty pending-home
slot, and byes appear only once the quota is met. -/
def DrawInv (m : Nat) (s : DrawStageState) : Prop :=
  matchCount s ≤ m ∧ (matchCount s = m → s.currentHome = none) ∧
    (0 < byeCount s → matchCount s = m)

lemma drawInv_drawPlayer (m : Nat) (fid : String) (i : Nat)
    (s : DrawStageState) (h : DrawInv m s) :
    DrawInv m (drawPlayer m fid i s) := by
  obtain ⟨hle, hfull, hbye⟩ := h
  by_cases hz : s.remainingPlayers.length = 0
  · rw [drawPlayer_of_empty m fid i s hz]
    exact ⟨hle, hfull, hbye⟩
  · obtain ⟨hlen, hcase⟩ := drawPlayer_counts m fid i s hz
    rcases hcase with ⟨hm, hsome, hmc, hbc, hnone⟩ |
        ⟨hm, hnone, hmc, hbc, hsome⟩ | ⟨hm, hmc, hbc, hsame⟩
    · have hm2 : matchCount s < m := hm
      refine ⟨by omega, fun _ => hnone, fun hb => ?_⟩
      rw [hbc] at hb
      have := hbye hb
      omega
    · have hm2 : matchCount s < m := hm
      refine ⟨by omega, fun hfull2 => ?_, fun hb => ?_⟩
      · rw [hmc] at hfull2
        omega
      · rw [hbc] at hb
        have := hbye hb
        omega
    · have hm2 : ¬ matchCount s < m := hm
      have heq : matchCount s = m := by omega
      refine ⟨by omega, fun _ => ?_, fun _ => by omega⟩
      rw [hsame]
      exact hfull heq

lemma drawInv_drawSeq (m : Nat) (idxs : List Nat) (s : DrawStageState)
    (h : DrawInv m s) : DrawInv m (drawSeq m idxs s) := by
  induction idxs generalizing s with
  | nil => exact h
  | cons i rest ih =>
    exact ih _ (drawInv_drawPlayer m "" i s h)

lemma drawSeq_empties (m : Nat) (idxs : List Nat) (s : DrawStageState)
    (h : idxs.length = s.remainingPlayers.length) :
    (drawSeq m idxs s).remainingPlayers.length = 0 := by
  induction idxs generalizing s with
  | nil => simpa using h.symm
  | cons i rest ih =>
    have hz : s.remainingPlayers.length ≠ 0 := by
      simp at h
      omega
    obtain ⟨hlen, -⟩ := drawPlayer_counts m "" i s hz
    rw [drawSeq]
    apply ih
    simp at h
    omega

lemma bracket_identity (N : Nat) (h : 2 ≤ N) :
    2 * matchesNeededOf N + byesNeededOf N = N := by
  have h1 := Nat.le_pow_clog one_lt_two N
  have h2 : 2 ^ (Nat.clog 2 N - 1) < N :=
    Nat.pow_pred_clog_lt_self one_lt_two (by omega)
  have h3 : 0 < Nat.clog 2 N := Nat.clog_pos one_lt_two h
  have h4 : 2 ^ Nat.clog 2 N = 2 * 2 ^ (Nat.clog 2 N - 1) := by
    calc 2 ^ Nat.clog 2 N = 2 ^ (Nat.clog 2 N - 1 + 1) := by
          rw [Nat.sub_add_cancel h3]
      _ = 2 * 2 ^ (Nat.clog 2 N - 1) := by rw [pow_succ, Nat.mul_comm]
  simp only [matchesNeededOf, byesNeededOf]
  rw [if_neg (by omega : ¬ N < 2)]
  omega

/-- The player selected by `drawPlayer` from a non-empty pool. -/
def drawnAt (s : DrawStageState) (i : Nat)
    (h : s.remainingPlayers.length ≠ 0) : Player :=
  s.remainingPlayers.get
    ⟨i % s.remainingPlayers.length, Nat.mod_lt _ (Nat.pos_of_ne_zero h)⟩

lemma drawPlayer_of_match (m : Nat) (fid : String) (i : Nat)
    (s : DrawStageState) (home : Player)
    (h : s.remainingPlayers.length ≠ 0)
    (hm : matchesSoFar s.fixtures < m) (hh : s.currentHome = some home) :
    drawPlayer m fid i s =
      { s with
        remainingPlayers :=
          s.remainingPlayers.eraseIdx (i % s.remainingPlayers.length)
        lastDrawnNumber := some (drawnAt s i h).number
        fixtures :=
          { id := fid, home := home, away := some (drawnAt s i h) }
            :: s.fixtures
        drawHistory :=
          ((drawnAt s i h).name ++ " drawn vs " ++ home.name)
            :: s.drawHistory
        currentHome := none } := by
  unfold drawPlayer drawnAt
  rw [dif_neg h]
  simp only [if_pos hm, hh]

lemma drawPlayer_of_pending (m : Nat) (fid : String) (i : Nat)
    (s : DrawStageState)
    (h : s.remainingPlayers.length ≠ 0)
    (hm : matchesSoFar s.fixtures < m) (hh : s.currentHome = none) :
    drawPlayer m fid i s =
      { s with
        remainingPlayers :=
          s.remainingPlayers.eraseIdx (i % s.remainingPlayers.length)
        lastDrawnNumber := some (drawnAt s i h).number
        currentHome := some (drawnAt s i h)
        drawHistory :=
          ((drawnAt s i h).name ++ " drawn as Home") :: s.drawHistory } := by
  unfold drawPlayer drawnAt
  rw [dif_neg h]
  simp only [if_pos hm, hh]

lemma drawPlayer_of_bye (m : Nat) (fid : String) (i : Nat)
    (s : DrawStageState)
    (h : s.remainingPlayers.length ≠ 0)
    (hm : ¬ matchesSoFar s.fixtures < m) :
    drawPlayer m fid i s =
      { s with
        remainingPlayers :=
          s.remainingPlayers.eraseIdx (i % s.remainingPlayers.length)
        lastDrawnNumber := some (drawnAt s i h).number
        fixtures :=
          { id := fid, home := drawnAt s i h, away := none } :: s.fixtures
        drawHistory :=
          ((drawnAt s i h).name ++ " receives a BYE!") :: s.drawHistory } := by
  unfold drawPlayer drawnAt
  rw [dif_neg h]
  simp only [if_neg hm]

lemma pool_perm_drawn_cons (s : DrawStageState) (i : Nat)
    (h : s.remainingPlayers.length ≠ 0) :
    s.remainingPlayers.Perm
      (drawnAt s i h ::
        s.remainingPlayers.eraseIdx (i % s.remainingPlayers.length)) := by
  have hlt : i % s.remainingPlayers.length < s.remainingPlayers.length :=
    Nat.mod_lt _ (Nat.pos_of_ne_zero h)
  have hmem : drawnAt s i h ∈ s.remainingPlayers := by
    unfold drawnAt
    exact List.get_mem _ _ _
  have h1 : s.remainingPlayers.Perm
      (drawnAt s i h :: s.remainingPlayers.erase (drawnAt s i h)) :=
    List.perm_cons_erase hmem
  have h2 : (s.remainingPlayers.erase (drawnAt s i h)).Perm
      (s.remainingPlayers.eraseIdx (i % s.remainingPlayers.length)) := by
    have h3 := List.erase_getElem
      (l := s.remainingPlayers) (i := i % s.remainingPlayers.length) hlt
    simpa [drawnAt, List.get_eq_getElem] using h3
  exact h1.trans (h2.cons _)

lemma statePlayers_drawPlayer (m : Nat) (fid : String) (i : Nat)
    (s : DrawStageState) :
    (statePlayers (drawPlayer m fid i s)).Perm (statePlayers s) := by
  by_cases h : s.remainingPlayers.length = 0
  · rw [drawPlayer_of_empty m fid i s h]
    exact List.Perm.refl _
  · have hperm := pool_perm_drawn_cons s i h
    by_cases hm : matchesSoFar s.fixtures < m
    · rcases hc : s.currentHome with _ | home
      · rw [drawPlayer_of_pending m fid i s h hm hc]
        unfold statePlayers
        simp only [hc, Option.toList_some, Option.toList_none,
          List.append_nil, List.append_assoc, List.singleton_append]
        set d := drawnAt s i h with hd
        set E := s.remainingPlayers.eraseIdx (i % s.remainingPlayers.length)
          with hE
        set F := s.fixtures.flatMap fixturePlayers with hF
        have hRF : (s.remainingPlayers ++ F).Perm (d :: (E ++ F)) := by
          have h0 := hperm.append_right F
          simpa using h0
        exact List.perm_middle.trans hRF.symm
      · rw [drawPlayer_of_match m fid i s home h hm hc]
        unfold statePlayers
        simp only [hc, Option.toList_some, Option.toList_none,
          List.append_nil, List.append_assoc, List.singleton_append,
          List.flatMap_cons, fixturePlayers, List.cons_append]
        set d := drawnAt s i h with hd
        set E := s.remainingPlayers.eraseIdx (i % s.remainingPlayers.length)
          with hE
        set F := s.fixtures.flatMap fixturePlayers with hF
        have hRF : (s.remainingPlayers ++ F).Perm (d :: (E ++ F)) := by
          have h0 := hperm.append_right F
          simpa using h0
        have g1 : (E ++ home :: d :: F).Perm (home :: (E ++ d :: F)) :=
          List.perm_middle
        have g2 : (E ++ d :: F).Perm (d :: (E ++ F)) := List.perm_middle
        have g3 : (s.remainingPlayers ++ home :: F).Perm
            (home :: (s.remainingPlayers ++ F)) := List.perm_middle
        exact g1.trans ((g2.cons home).trans
          ((hRF.cons home).symm.trans g3.symm))
    · rw [drawPlayer_of_bye m fid i s h hm]
      unfold statePlayers
      simp only [List.append_assoc, List.flatMap_cons, fixturePlayers,
        Option.toList_none, List.cons_append, List.nil_append,
        List.singleton_append]
      set d := drawnAt s i h with hd
      set E := s.remainingPlayers.eraseIdx (i % s.remainingPlayers.length)
        with hE
      set F := s.fixtures.flatMap fixturePlayers with hF
      set C := s.currentHome.toList with hC
      have c1 : (C ++ d :: F).Perm (d :: (C ++ F)) := List.perm_middle
      have c2 : (E ++ (C ++ d :: F)).Perm (E ++ (d :: (C ++ F))) :=
        c1.append_left E
      have c3 : (E ++ d :: (C ++ F)).Perm (d :: (E ++ (C ++ F))) :=
        List.perm_middle
      have hR2 : (s.remainingPlayers ++ (C ++ F)).Perm
          (d :: (E ++ (C ++ F))) := by
        have h0 := hperm.append_right (C ++ F)
        simpa using h0
      exact c2.trans (c3.trans hR2.symm)

lemma statePlayers_drawSeq (m : Nat) (idxs : List Nat) (s : DrawStageState) :
    (statePlayers (drawSeq m idxs s)).Perm (statePlayers s) := by
  induction idxs generalizing s with
  | nil => exact List.Perm.refl _
  | cons i rest ih =>
    exact (ih (drawPlayer m "" i s)).trans (statePlayers_drawPlayer m "" i s)

lemma entrantSum_initState (ps : List Player) :
    entrantSum (initState ps) = ps.length := by
  simp [entrantSum, initState, pendingCount, matchCount, byeCount,
    matchesSoFar, byesSoFar]

lemma drawInv_initState (m : Nat) (ps : List Player) :
    DrawInv m (initState ps) := by
  refine ⟨?_, fun _ => rfl, ?_⟩
  · simp [matchCount, matchesSoFar, initState]
  · simp [byeCount, byesSoFar, initState]

lemma no_bye_step (m : Nat) (fid : String) (i : Nat) (s : DrawStageState)
    (hsum : entrantSum s = 2 * m) (hmc : matchCount s ≤ m)
    (hbc : byeCount s = 0) :
    entrantSum (drawPlayer m fid i s) = 2 * m ∧
    matchCount (drawPlayer m fid i s) ≤ m ∧
    byeCount (drawPlayer m fid i s) = 0 := by
  refine ⟨by rw [entrantSum_drawPlayer]; exact hsum, ?_⟩
  by_cases h : s.remainingPlayers.length = 0
  · rw [drawPlayer_of_empty m fid i s h]
    exact ⟨hmc, hbc⟩
  · have hr : 1 ≤ s.remainingPlayers.length := Nat.pos_of_ne_zero h
    have hpc : pendingCount s ≤ 1 := by
      unfold pendingCount
      split <;> omega
    have hlt : matchCount s < m := by
      unfold entrantSum at hsum
      omega
    obtain ⟨-, hcase⟩ := drawPlayer_counts m fid i s h
    rcases hcase with ⟨_, _, hmc2, hbc2, _⟩ | ⟨_, _, hmc2, hbc2, _⟩ |
        ⟨hm3, _, _, _⟩
    · exact ⟨by omega, by rw [hbc2]; exact hbc⟩
    · exact ⟨by omega, by rw [hbc2]; exact hbc⟩
    · exact absurd hlt hm3

lemma no_bye_seq (m : Nat) (idxs : List Nat) (s : DrawStageState)
    (hsum : entrantSum s = 2 * m) (hmc : matchCount s ≤ m)
    (hbc : byeCount s = 0) :
    byeCount (drawSeq m idxs s) = 0 := by
  induction idxs generalizing s with
  | nil => exact hbc
  | cons i rest ih =>
    obtain ⟨h1, h2, h3⟩ := no_bye_step m "" i s hsum hmc hbc
    exact ih _ h1 h2 h3

lemma applyOp_stays_finished (m : Nat) (op : DrawOp) (s : DrawStageState)
    (h1 : s.remainingPlayers = []) (h2 : s.isDrawing = false) :
    (applyOp m op s).remainingPlayers = [] ∧
    (applyOp m op s).isDrawing = false := by
  cases op with
  | toggle =>
    simp only [applyOp]
    unfold toggleDraw
    rw [if_neg (by simp [h1])]
    exact ⟨h1, h2⟩
  | timer =>
    simp only [applyOp]
    unfold timerEffect
    rw [if_pos (by simp [h1])]
    exact ⟨h1, rfl⟩
  | draw fid i =>
    simp only [applyOp]
    rw [drawPlayer_of_empty m fid i s (by simp [h1])]
    exact ⟨h1, rfl⟩

lemma applyOps_stays_finished (m : Nat) (ops : List DrawOp)
    (s : DrawStageState)
    (h1 : s.remainingPlayers = []) (h2 : s.isDrawing = false) :
    (applyOps m ops s).remainingPlayers = [] ∧
    (applyOps m ops s).isDrawing = false := by
  induction ops generalizing s with
  | nil => exact ⟨h1, h2⟩
  | cons op rest ih =>
    obtain ⟨g1, g2⟩ := applyOp_stays_finished m op s h1 h2
    exact ih _ g1 g2

lemma mapLookup_eq_none_of_not_mem (k : Nat) (mp : List (Nat × SimBody))
    (h : k ∉ mp.map Prod.fst) : mapLookup k mp = none := by
  induction mp with
  | nil => rfl
  | cons e rest ih =>
    obtain ⟨k2, b⟩ := e
    rw [List.map_cons] at h
    have hne : k ≠ k2 := fun hk => h (by simp [hk])
    have hrest : k ∉ rest.map Prod.fst := fun hk => h (List.mem_cons_of_mem _ hk)
    rw [mapLookup, if_neg (fun hc => hne hc.symm)]
    exact ih hrest

lemma mapLookup_mapDelete (k : Nat) (mp : List (Nat × SimBody))
    (hnd : (mp.map Prod.fst).Nodup) :
    mapLookup k (mapDelete k mp) = none := by
  induction mp with
  | nil => rfl
  | cons e rest ih =>
    obtain ⟨k2, b⟩ := e
    rw [List.map_cons, List.nodup_cons] at hnd
    by_cases hk : k2 = k
    · rw [mapDelete, if_pos hk]
      subst hk
      exact mapLookup_eq_none_of_not_mem k2 rest hnd.1
    · rw [mapDelete, if_neg hk, mapLookup, if_neg hk]
      exact ih hnd.2

/-! Claim theorems. -/

/-- C3: the bracket planner returns `matchesNeeded = 0` for `N < 2`,
and for `N ≥ 2` it returns `(N - (nextPow2(N) - N)) / 2` with
`nextPow2(N) = 2^ceil(log2 N)`; moreover `2 * matchesNeeded +
byesNeeded = N`, so `matchesNeeded` is an exact non-negative integer. -/
theorem bracket_planner_correct (N : Nat) :
    (N < 2 → matchesNeededOf N = 0) ∧
    (2 ≤ N →
      matchesNeededOf N = (N - (2 ^ Nat.clog 2 N - N)) / 2 ∧
      2 * matchesNeededOf N + byesNeededOf N = N) := by
  constructor
  · intro h
    simp [matchesNeededOf, h]
  · intro h
    refine ⟨?_, bracket_identity N h⟩
    simp only [matchesNeededOf]
    rw [if_neg (by omega)]

/-- Witness for C3 at `N = 5` and `N = 1`. -/
theorem bracket_planner_correct_witness :
    matchesNeededOf 1 = 0 ∧
    (matchesNeededOf 5 = (5 - (2 ^ Nat.clog 2 5 - 5)) / 2 ∧
      2 * matchesNeededOf 5 + byesNeededOf 5 = 5) :=
  ⟨(bracket_planner_correct 1).1 (by decide),
   (bracket_planner_correct 5).2 (by decide)⟩

/-- C5: calling `drawPlayer` with an empty pool leaves the entire draw
state unchanged except that the drawing-active flag is forced to
`false`; in particular pool, fixtures, pending home and last-drawn
number are untouched and no error is raised (the function is total). -/
theorem empty_pool_draw_noop (m : Nat) (fid : String) (i : Nat)
    (s : DrawStageState) (h : s.remainingPlayers = []) :
    drawPlayer m fid i s = { s with isDrawing := false } :=
  drawPlayer_of_empty m fid i s (by simp [h])

/-- Witness for C5 on a concrete exhausted state. -/
theorem empty_pool_draw_noop_witness :
    drawPlayer 2 "f9" 7
        { remainingPlayers := []
          fixtures := [{ id := "f1"
                         home := { id := "a", name := "A", number := 1 }
                         away := none }]
          currentHome := none
          lastDrawnNumber := some 1
          isDrawing := true
          drawHistory := ["A receives a BYE!"] }
      = { remainingPlayers := []
          fixtures := [{ id := "f1"
                         home := { id := "a", name := "A", number := 1 }
                         away := none }]
          currentHome := none
          lastDrawnNumber := some 1
          isDrawing := false
          drawHistory := ["A receives a BYE!"] } :=
  empty_pool_draw_noop 2 "f9" 7 _ rfl

/-- C1: a draw from a non-empty pool removes the selected entrant from
the pool, records its number as last-drawn, and routes it: while the
match quota is unmet, a pending home completes a fixture (home =
pending, away = drawn) and is cleared, otherwise the drawn entrant
becomes pending home; once the quota is met the drawn entrant heads a
bye fixture (away = null). -/
theorem draw_next_step_correct (m : Nat) (fid : String) (idx : Nat)
    (s : DrawStageState) (h : idx < s.remainingPlayers.length) :
    (drawPlayer m fid idx s).remainingPlayers
        = s.remainingPlayers.eraseIdx idx ∧
    (drawPlayer m fid idx s).lastDrawnNumber
        = some (s.remainingPlayers.get ⟨idx, h⟩).number ∧
    (matchesSoFar s.fixtures < m →
      (∀ home, s.currentHome = some home →
        (drawPlayer m fid idx s).fixtures
            = { id := fid, home := home,
                away := some (s.remainingPlayers.get ⟨idx, h⟩) }
              :: s.fixtures ∧
        (drawPlayer m fid idx s).currentHome = none) ∧
      (s.currentHome = none →
        (drawPlayer m fid idx s).currentHome
            = some (s.remainingPlayers.get ⟨idx, h⟩) ∧
        (drawPlayer m fid idx s).fixtures = s.fixtures)) ∧
    (¬ matchesSoFar s.fixtures < m →
      (drawPlayer m fid idx s).fixtures
          = { id := fid, home := s.remainingPlayers.get ⟨idx, h⟩,
              away := none } :: s.fixtures ∧
      (drawPlayer m fid idx s).currentHome = s.currentHome) := by
  have hne : s.remainingPlayers.length ≠ 0 := by omega
  have hmod : idx % s.remainingPlayers.length = idx := Nat.mod_eq_of_lt h
  have hdrawn : drawnAt s idx hne = s.remainingPlayers.get ⟨idx, h⟩ := by
    unfold drawnAt
    congr 1
    exact Fin.ext hmod
  by_cases hm : matchesSoFar s.fixtures < m
  · rcases hc : s.currentHome with _ | home
    · rw [drawPlayer_of_pending m fid idx s hne hm hc]
      refine ⟨by rw [hmod], by rw [hdrawn], fun _ => ⟨?_, fun _ => ?_⟩,
        fun hm2 => absurd hm hm2⟩
      · intro home hcc
        simp [hc] at hcc
      · exact ⟨by rw [hdrawn], rfl⟩
    · rw [drawPlayer_of_match m fid idx s home hne hm hc]
      refine ⟨by rw [hmod], by rw [hdrawn], fun _ => ⟨?_, ?_⟩,
        fun hm2 => absurd hm hm2⟩
      · intro home2 hcc
        injection hcc with hcc
        subst hcc
        exact ⟨by rw [hdrawn], rfl⟩
      · intro hcc
        exact absurd hcc (by simp)
  · rw [drawPlayer_of_bye m fid idx s hne hm]
    exact ⟨by rw [hmod], by rw [hdrawn], fun hm2 => absurd hm2 hm,
      fun _ => ⟨by rw [hdrawn], rfl⟩⟩

/-- Witness for C1: a concrete two-player state with a pending home
forms the fixture and clears pending-home. -/
theorem draw_next_step_correct_witness :
    (drawPlayer 1 "fx" 0
        { remainingPlayers := [{ id := "b", name := "B", number := 2 }]
          fixtures := []
          currentHome := some { id := "a", name := "A", number := 1 }
          lastDrawnNumber := some 1
          isDrawing := true
          drawHistory := [] }).remainingPlayers = [] ∧
    (drawPlayer 1 "fx" 0
        { remainingPlayers := [{ id := "b", name := "B", number := 2 }]
          fixtures := []
          currentHome := some { id := "a", name := "A", number := 1 }
          lastDrawnNumber := some 1
          isDrawing := true
          drawHistory := [] }).lastDrawnNumber = some 2 ∧
    (drawPlayer 1 "fx" 0
        { remainingPlayers := [{ id := "b", name := "B", number := 2 }]
          fixtures := []
          currentHome := some { id := "a", name := "A", number := 1 }
          lastDrawnNumber := some 1
          isDrawing := true
          drawHistory := [] }).fixtures
      = [{ id := "fx", home := { id := "a", name := "A", number := 1 },
           away := some { id := "b", name := "B", number := 2 } }] ∧
    (drawPlayer 1 "fx" 0
        { remainingPlayers := [{ id := "b", name := "B", number := 2 }]
          fixtures := []
          currentHome := some { id := "a", name := "A", number := 1 }
          lastDrawnNumber := some 1
          isDrawing := true
          drawHistory := [] }).currentHome = none := by
  have h := draw_next_step_correct 1 "fx" 0
    { remainingPlayers := [{ id := "b", name := "B", number := 2 }]
      fixtures := []
      currentHome := some { id := "a", name := "A", number := 1 }
      lastDrawnNumber := some 1
      isDrawing := true
      drawHistory := [] } (by decide)
  obtain ⟨h1, h2, h3, -⟩ := h
  obtain ⟨h4, -⟩ := h3 (by decide)
  obtain ⟨h5, h6⟩ := h4 _ rfl
  exact ⟨h1, h2, h5, h6⟩

/-- C2: for any initial entrant list with unique numbers and any
sequence of draws (any random order), the sum
`|pool| + pending + 2 × |matches| + |byes|` equals the initial entrant
count after every call. -/
theorem entrant_conservation (initialPlayers : List Player)
    (idxs : List Nat)
    (hnd : (initialPlayers.map Player.number).Nodup) :
    entrantSum (drawSeq (matchesNeededOf initialPlayers.length) idxs
      (initState initialPlayers)) = initialPlayers.length := by
  rw [entrantSum_drawSeq]
  exact entrantSum_initState initialPlayers

/-- Witness for C2: three entrants, two draws. -/
theorem entrant_conservation_witness :
    entrantSum (drawSeq (matchesNeededOf 3) [1, 0]
      (initState [{ id := "a", name := "A", number := 1 },
                  { id := "b", name := "B", number := 2 },
                  { id := "c", name := "C", number := 3 }])) = 3 := by
  have h := entrant_conservation
    [{ id := "a", name := "A", number := 1 },
     { id := "b", name := "B", number := 2 },
     { id := "c", name := "C", number := 3 }] [1, 0] (by decide)
  simpa using h

/-- C9: with the drawing flag false the step applies gravity
(`gravity.y = 1`) and the attractor handler applies no force or spin to
any body; with the flag true gravity is disabled (`gravity.y = 0`) and
each body receives a center-directed force proportional to its mass and
displacement plus a random turbulence term, skipped entirely when the
squared distance to center is below 1. -/
theorem force_regime_correct :
    gravityY false = 1 ∧ gravityY true = 0 ∧
    (∀ (cX cY r1 r2 r3 r4 : ℚ) (b : SimBody),
      beforeUpdateForces false cX cY r1 r2 r3 r4 b
        = { force := none, spin := none }) ∧
    (∀ (cX cY r1 r2 r3 r4 : ℚ) (b : SimBody),
      ((cX - b.posX) * (cX - b.posX) + (cY - b.posY) * (cY - b.posY) < 1 →
        beforeUpdateForces true cX cY r1 r2 r3 r4 b
          = { force := none, spin := none }) ∧
      (1 ≤ (cX - b.posX) * (cX - b.posX) + (cY - b.posY) * (cY - b.posY) →
        (beforeUpdateForces true cX cY r1 r2 r3 r4 b).force
          = some ((cX - b.posX) * ((2 / 100000 : ℚ) * b.mass)
                    + (r1 - 1/2) * ((15 / 1000 : ℚ) * b.mass),
                  (cY - b.posY) * ((2 / 100000 : ℚ) * b.mass)
                    + (r2 - 1/2) * ((15 / 1000 : ℚ) * b.mass)))) := by
  refine ⟨rfl, rfl, fun cX cY r1 r2 r3 r4 b => rfl,
    fun cX cY r1 r2 r3 r4 b => ⟨fun hlt => ?_, fun hge => ?_⟩⟩
  · unfold beforeUpdateForces
    rw [if_neg (by simp), if_pos hlt]
  · unfold beforeUpdateForces
    rw [if_neg (by simp), if_neg (not_lt.mpr hge)]

/-- Witness for C9: a unit-mass body displaced from the center. -/
theorem force_regime_correct_witness :
    (beforeUpdateForces true 300 250 0 1 0 1
        { label := 4, posX := 200, posY := 250, mass := 1 }).force
      = some (100 * ((2 / 100000 : ℚ) * 1) + (0 - 1/2) * ((15 / 1000 : ℚ) * 1),
              0 * ((2 / 100000 : ℚ) * 1) + (1 - 1/2) * ((15 / 1000 : ℚ) * 1)) ∧
    beforeUpdateForces true 300 250 0 1 0 1
        { label := 4, posX := 300, posY := 250, mass := 1 }
      = { force := none, spin := none } := by
  constructor
  · have h := (force_regime_correct.2.2.2 300 250 0 1 0 1
      { label := 4, posX := 200, posY := 250, mass := 1 }).2 (by norm_num)
    rw [h]
    norm_num
  · exact (force_regime_correct.2.2.2 300 250 0 1 0 1
      { label := 4, posX := 300, posY := 250, mass := 1 }).1 (by norm_num)

/-- C8: ejecting a number with no corresponding body is a complete
no-op on the body bookkeeping, and ejecting an existing body removes it
from the world and from the number-to-body map. -/
theorem eject_idempotent_safe (k : Nat) (w : WorldState) :
    (mapLookup k w.bodyMap = none → ejectEffect (some k) w = w) ∧
    (∀ b, mapLookup k w.bodyMap = some b →
      (w.bodyMap.map Prod.fst).Nodup →
      (ejectEffect (some k) w).worldBodies = w.worldBodies.erase b ∧
      mapLookup k (ejectEffect (some k) w).bodyMap = none) := by
  constructor
  · intro h
    simp only [ejectEffect, h]
  · intro b hb hnd
    constructor
    · simp only [ejectEffect, hb]
    · simp only [ejectEffect, hb]
      exact mapLookup_mapDelete k w.bodyMap hnd

/-- Witness for C8: ejecting the missing number 9 is a no-op; ejecting
the present number 2 removes its body from world and map. -/
theorem eject_idempotent_safe_witness :
    ejectEffect (some 9)
        { worldBodies := [{ label := 2, posX := 0, posY := 0, mass := 1 }]
          bodyMap := [(2, { label := 2, posX := 0, posY := 0, mass := 1 })] }
      = { worldBodies := [{ label := 2, posX := 0, posY := 0, mass := 1 }]
          bodyMap := [(2, { label := 2, posX := 0, posY := 0, mass := 1 })] } ∧
    (ejectEffect (some 2)
        { worldBodies := [{ label := 2, posX := 0, posY := 0, mass := 1 }]
          bodyMap := [(2, { label := 2, posX := 0, posY := 0, mass := 1 })] }
      ).worldBodies
      = [{ label := 2, posX := 0, posY := 0, mass := 1 }].erase
          { label := 2, posX := 0, posY := 0, mass := 1 } ∧
    mapLookup 2 (ejectEffect (some 2)
        { worldBodies := [{ label := 2, posX := 0, posY := 0, mass := 1 }]
          bodyMap := [(2, { label := 2, posX := 0, posY := 0, mass := 1 })] }
      ).bodyMap = none := by
  refine ⟨(eject_idempotent_safe 9 _).1 (by decide), ?_⟩
  exact (eject_idempotent_safe 2 _).2 _ (by decide) (by decide)

/-- C10: once the pool is empty the drawing flag can never become true
again: `toggleDraw` is the identity, the timer effect and an empty-pool
draw both force the flag to false, and from a finished state no
sequence of toggle/timer/draw operations ever sets the flag. -/
theorem completed_draw_not_restartable (m : Nat) (s : DrawStageState)
    (hpool : s.remainingPlayers = []) :
    toggleDraw s = s ∧
    (timerEffect s).isDrawing = false ∧
    (∀ fid i, (drawPlayer m fid i s).isDrawing = false) ∧
    (s.isDrawing = false →
      ∀ ops, (applyOps m ops s).isDrawing = false) := by
  refine ⟨?_, ?_, fun fid i => ?_, fun hoff ops => ?_⟩
  · unfold toggleDraw
    rw [if_neg (by simp [hpool])]
  · unfold timerEffect
    rw [if_pos (by simp [hpool])]
  · rw [drawPlayer_of_empty m fid i s (by simp [hpool])]
  · exact (applyOps_stays_finished m ops s hpool hoff).2

/-- Witness for C10: a finished one-bye state survives a toggle, a
timer tick and a stray draw with the flag still false. -/
theorem completed_draw_not_restartable_witness :
    toggleDraw
        { remainingPlayers := []
          fixtures := [{ id := "f1"
                         home := { id := "a", name := "A", number := 1 }
                         away := none }]
          currentHome := none
          lastDrawnNumber := some 1
          isDrawing := false
          drawHistory := [] }
      = { remainingPlayers := []
          fixtures := [{ id := "f1"
                         home := { id := "a", name := "A", number := 1 }
                         away := none }]
          currentHome := none
          lastDrawnNumber := some 1
          isDrawing := false
          drawHistory := [] } ∧
    (applyOps 1 [DrawOp.toggle, DrawOp.timer, DrawOp.draw "g" 0]
        { remainingPlayers := []
          fixtures := [{ id := "f1"
                         home := { id := "a", name := "A", number := 1 }
                         away := none }]
          currentHome := none
          lastDrawnNumber := some 1
          isDrawing := false
          drawHistory := [] }).isDrawing = false := by
  have h := completed_draw_not_restartable 1
    { remainingPlayers := []
      fixtures := [{ id := "f1"
                     home := { id := "a", name := "A", number := 1 }
                     away := none }]
      currentHome := none
      lastDrawnNumber := some 1
      isDrawing := false
      drawHistory := [] } rfl
  exact ⟨h.1, h.2.2.2 rfl [DrawOp.toggle, DrawOp.timer, DrawOp.draw "g" 0]⟩

/-- C7: when the initial entrant count is an exact power of two
(`N = 2^t ≥ 2`), no bye fixture is ever created, over any sequence of
draws. -/
theorem power_of_two_no_byes (t : Nat) (initialPlayers : List Player)
    (idxs : List Nat) (ht : 1 ≤ t)
    (hN : initialPlayers.length = 2 ^ t) :
    byeCount (drawSeq (matchesNeededOf initialPlayers.length) idxs
      (initState initialPlayers)) = 0 := by
  have h2 : 2 ≤ initialPlayers.length := by
    rw [hN]
    calc 2 = 2 ^ 1 := rfl
      _ ≤ 2 ^ t := Nat.pow_le_pow_right (by omega) ht
  have hb0 : byesNeededOf initialPlayers.length = 0 := by
    unfold byesNeededOf
    rw [hN, Nat.clog_pow 2 t one_lt_two]
    omega
  have hid := bracket_identity initialPlayers.length h2
  have hsum : entrantSum (initState initialPlayers)
      = 2 * matchesNeededOf initialPlayers.length := by
    rw [entrantSum_initState]
    omega
  exact no_bye_seq _ idxs _ hsum
    (by simp [matchCount, matchesSoFar, initState])
    (by simp [byeCount, byesSoFar, initState])

/-- Witness for C7: two entrants (N = 2¹), two draws, zero byes. -/
theorem power_of_two_no_byes_witness :
    byeCount (drawSeq (matchesNeededOf
        ([{ id := "a", name := "A", number := 1 },
          { id := "b", name := "B", number := 2 }] : List Player).length)
      [0, 0]
      (initState [{ id := "a", name := "A", number := 1 },
                  { id := "b", name := "B", number := 2 }])) = 0 :=
  power_of_two_no_byes 1
    [{ id := "a", name := "A", number := 1 },
     { id := "b", name := "B", number := 2 }] [0, 0] (by decide) (by decide)

/-- C4: for `N ≥ 2` unique-numbered entrants, drawing until the pool is
empty (one draw per entrant, in any order) yields exactly
`matchesNeeded` fixtures with an away entrant, exactly
`byesNeeded = nextPow2(N) - N` bye fixtures, and no pending home. -/
theorem full_draw_final_counts (initialPlayers : List Player)
    (idxs : List Nat)
    (hN : 2 ≤ initialPlayers.length)
    (hnd : (initialPlayers.map Player.number).Nodup)
    (hlen : idxs.length = initialPlayers.length) :
    (drawSeq (matchesNeededOf initialPlayers.length) idxs
        (initState initialPlayers)).remainingPlayers = [] ∧
    matchCount (drawSeq (matchesNeededOf initialPlayers.length) idxs
        (initState initialPlayers)) = matchesNeededOf initialPlayers.length ∧
    byeCount (drawSeq (matchesNeededOf initialPlayers.length) idxs
        (initState initialPlayers)) = byesNeededOf initialPlayers.length ∧
    (drawSeq (matchesNeededOf initialPlayers.length) idxs
        (initState initialPlayers)).currentHome = none := by
  set m := matchesNeededOf initialPlayers.length with hm
  set final := drawSeq m idxs (initState initialPlayers) with hfinal
  have hempty : final.remainingPlayers = [] := by
    have h0 := drawSeq_empties m idxs (initState initialPlayers)
      (by simpa [initState] using hlen)
    rw [hfinal]
    exact List.length_eq_zero.mp h0
  obtain ⟨hle, hfull, hbye⟩ :=
    drawInv_drawSeq m idxs _ (drawInv_initState m initialPlayers)
  rw [← hfinal] at hle hfull hbye
  have hsum : entrantSum final = initialPlayers.length := by
    rw [hfinal, entrantSum_drawSeq, entrantSum_initState]
  have hid := bracket_identity initialPlayers.length hN
  have hpc : pendingCount final ≤ 1 := by
    unfold pendingCount
    split <;> omega
  have hsum2 : pendingCount final + 2 * matchCount final + byeCount final
      = initialPlayers.length := by
    unfold entrantSum at hsum
    rw [hempty] at hsum
    simpa using hsum
  have hkm : matchCount final = m := by
    by_cases hb : byeCount final = 0
    · by_cases hk : matchCount final = m
      · exact hk
      · exfalso
        omega
    · exact hbye (by omega)
  have hch : final.currentHome = none := hfull hkm
  have hp0 : pendingCount final = 0 := by
    simp [pendingCount, hch]
  have hbeq : byeCount final = byesNeededOf initialPlayers.length := by
    omega
  exact ⟨hempty, hkm, hbeq, hch⟩

/-- Witness for C4: N = 2, two draws, one match, zero byes. -/
theorem full_draw_final_counts_witness :
    (drawSeq (matchesNeededOf 2) [0, 0]
        (initState [{ id := "a", name := "A", number := 1 },
                    { id := "b", name := "B", number := 2 }])
      ).remainingPlayers = [] ∧
    matchCount (drawSeq (matchesNeededOf 2) [0, 0]
        (initState [{ id := "a", name := "A", number := 1 },
                    { id := "b", name := "B", number := 2 }])) = 1 ∧
    byeCount (drawSeq (matchesNeededOf 2) [0, 0]
        (initState [{ id := "a", name := "A", number := 1 },
                    { id := "b", name := "B", number := 2 }])) = 0 ∧
    (drawSeq (matchesNeededOf 2) [0, 0]
        (initState [{ id := "a", name := "A", number := 1 },
                    { id := "b", name := "B", number := 2 }])
      ).currentHome = none := by
  have h := full_draw_final_counts
    [{ id := "a", name := "A", number := 1 },
     { id := "b", name := "B", number := 2 }] [0, 0]
    (by decide) (by decide) (by decide)
  have hc2 : Nat.clog 2 2 = 1 := Nat.clog_eq_one le_rfl le_rfl
  have hm : matchesNeededOf 2 = 1 := by
    simp only [matchesNeededOf]
    rw [if_neg (by norm_num), hc2]
    norm_num
  have hb : byesNeededOf 2 = 0 := by
    simp only [byesNeededOf]
    rw [hc2]
    norm_num
  simpa [hm, hb] using h

/-- C6: with unique initial entry numbers, after any sequence of draws
no entry number occurs in more than one fixture slot (home or away,
across all fixtures), and no pool member shares a number with any
fixture slot or with the pending-home entrant. -/
theorem no_duplicate_fixture_numbers (initialPlayers : List Player)
    (idxs : List Nat)
    (hnd : (initialPlayers.map Player.number).Nodup) :
    (((drawSeq (matchesNeededOf initialPlayers.length) idxs
        (initState initialPlayers)).fixtures.flatMap fixturePlayers).map
          Player.number).Nodup ∧
    ∀ p ∈ (drawSeq (matchesNeededOf initialPlayers.length) idxs
        (initState initialPlayers)).remainingPlayers,
      p.number ∉ (((drawSeq (matchesNeededOf initialPlayers.length) idxs
        (initState initialPlayers)).fixtures.flatMap fixturePlayers).map
          Player.number) ∧
      ∀ q, (drawSeq (matchesNeededOf initialPlayers.length) idxs
        (initState initialPlayers)).currentHome = some q →
          p.number ≠ q.number := by
  set m := matchesNeededOf initialPlayers.length with hm
  set final := drawSeq m idxs (initState initialPlayers) with hfinal
  have hperm : (statePlayers final).Perm (statePlayers (initState initialPlayers)) := by
    rw [hfinal]
    exact statePlayers_drawSeq m idxs (initState initialPlayers)
  have hinit : statePlayers (initState initialPlayers) = initialPlayers := by
    simp [statePlayers, initState]
  rw [hinit] at hperm
  have hnd2 : ((statePlayers final).map Player.number).Nodup :=
    ((hperm.map Player.number).nodup_iff).mpr hnd
  unfold statePlayers at hnd2
  rw [List.map_append, List.map_append, List.nodup_append] at hnd2
  obtain ⟨hndRC, hndF, hdisj⟩ := hnd2
  rw [List.nodup_append] at hndRC
  obtain ⟨hndR, hndC, hdisjRC⟩ := hndRC
  refine ⟨hndF, fun p hp => ⟨?_, ?_⟩⟩
  · intro hmem
    have h1 : p.number ∈ final.remainingPlayers.map Player.number :=
      List.mem_map_of_mem Player.number hp
    exact hdisj (List.mem_append_left _ h1) hmem
  · intro q hq heq
    have h1 : p.number ∈ final.remainingPlayers.map Player.number :=
      List.mem_map_of_mem Player.number hp
    have h2 : q.number ∈ final.currentHome.toList.map Player.number := by
      rw [hq]
      simp
    exact hdisjRC h1 (by rw [heq]; exact h2)

/-- Witness for C6: three entrants drawn twice, checked concretely. -/
theorem no_duplicate_fixture_numbers_witness :
    (((drawSeq (matchesNeededOf
          ([{ id := "a", name := "A", number := 1 },
             { id := "b", name := "B", number := 2 },
             { id := "c", name := "C", number := 3 }] : List Player).length)
        [0, 1]
        (initState [{ id := "a", name := "A", number := 1 },
                    { id := "b", name := "B", number := 2 },
                    { id := "c", name := "C", number := 3 }])
      ).fixtures.flatMap fixturePlayers).map Player.number).Nodup :=
  (no_duplicate_fixture_numbers
    [{ id := "a", name := "A", number := 1 },
     { id := "b", name := "B", number := 2 },
     { id := "c", name := "C", number := 3 }] [0, 1] (by decide)).1
